import Mathlib

/-!
Verification of the matching-engine core.

A shallow embedding of the Go matching engine
(`internal/engine/matching.go` together with the value types of the
engine package and the liquidity-pool client contract), followed by
theorems checking the natural-language specification against it.

Modelling conventions:
* Go `float64` quantities and prices are embedded as `ℚ` (exact
  arithmetic; the spec's properties are stated as exact equalities).
* The external liquidity-pool collaborator is embedded as a record of
  the responses it gives to the (at most one of each) calls a single
  `ProcessOrder` invocation performs: `GetCurrentPrice`,
  `GetAvailableLiquidity` and `TradeWithPool`.  The HTTP client
  (`liquiditypool/client.go`) returns the sentinel `0` from
  `GetCurrentPrice` when the collaborator is unreachable, `(0, false)`
  from `GetAvailableLiquidity`, and an error from `TradeWithPool`;
  these are all expressible as values of the record.
* `sort.Slice` guarantees only that the slice ends up sorted by the
  strict comparator (equal keys in unspecified order); it is embedded
  as an insertion sort with the corresponding non-strict comparator.
  None of the theorems below depend on the tie order.
* The `Message` string of `MatchResult` (built with `fmt.Sprintf` from
  the numeric outcome fields) is presentation-only and is omitted.
-/

namespace Engine

/-- Go `OrderType` (`Market`, `Limit`) from the engine value types. -/
inductive OrderType where
| Market : OrderType
| Limit : OrderType
deriving DecidableEq, Repr

/-- Go `MarginType` (`Cross`, `Isolated`); an opaque pass-through tag. -/
inductive MarginType where
| Cross : MarginType
| Isolated : MarginType
deriving DecidableEq, Repr

/-- Go `Order` struct.  The Go field `Type` is renamed `type_` because
`Type` is reserved in Lean; all other field names match the source. -/
structure Order where
  ID : String
  Price : ℚ
  Amount : ℚ
  InitialAmount : ℚ
  FilledAmount : ℚ
  type_ : OrderType
  IsBuyOrder : Bool
  Trader : String
  Asset : String
  Leverage : ℤ
  MarginType : MarginType
  Expiration : ℤ
  StopLossPrice : ℚ
  TakeProfitPrice : ℚ
deriving DecidableEq, Repr

/-- Go `MatchResult` struct (without the presentation-only `Message`). -/
structure MatchResult where
  Success : Bool
  FilledAmount : ℚ
  RemainingAmount : ℚ
  ExecutedPrice : ℚ
deriving DecidableEq, Repr

/-- Go `OrderBook` struct. -/
structure OrderBook where
  BuyOrders : List Order
  SellOrders : List Order
deriving DecidableEq, Repr

/-- The responses of the external liquidity-pool collaborator to the
calls one `ProcessOrder` invocation makes: `currentPrice` is what
`GetCurrentPrice` returns (`0` is the unreachable/error sentinel of the
HTTP client), `availableLiquidity` is the `(amount, ok)` pair returned
by `GetAvailableLiquidity`, and `tradeWithPool q` is the result of
`TradeWithPool` when asked to fill quantity `q` (`none` = error).
`isNil` models a `nil` `liquidityPool` interface field. -/
structure LiquidityPoolModel where
  currentPrice : ℚ
  availableLiquidity : ℚ × Bool
  tradeWithPool : ℚ → Option ℚ
  isNil : Bool

/-- Go's local `min` helper on `float64` (`matching.go` lines 182-187). -/
def minQ (a b : ℚ) : ℚ :=
  if a < b then a else b

/-- Embeds `checkStopLossAndTakeProfit` (`matching.go` lines 189-206): nested
early-return conditionals, embedded as nested `if`s. -/
def checkStopLossAndTakeProfit (order : Order) (currentPrice : ℚ) : Bool :=
  if order.IsBuyOrder then
    if order.StopLossPrice > 0 ∧ currentPrice ≤ order.StopLossPrice then true
    else if order.TakeProfitPrice > 0 ∧ currentPrice ≥ order.TakeProfitPrice then true
    else false
  else
    if order.StopLossPrice > 0 ∧ currentPrice ≥ order.StopLossPrice then true
    else if order.TakeProfitPrice > 0 ∧ currentPrice ≥ order.TakeProfitPrice then true
    else false

/-- Embeds `tryLiquidityPool` (`matching.go` lines 218-231): `none` models a
returned error, `some filled` a nil error with the pool's fill. -/
def tryLiquidityPool (lp : LiquidityPoolModel) (amount : ℚ) : Option ℚ :=
  if lp.isNil then none
  else
    if ¬lp.availableLiquidity.2 = true ∨ lp.availableLiquidity.1 ≤ 0 then none
    else lp.tradeWithPool (minQ amount lp.availableLiquidity.1)

/-- The body of the matching loop of `matchOrders` (`matching.go` lines
119-145).  Walks the (already sorted) opposing orders front to back,
threading `remainingAmount`; returns the updated list together with
`(remainingAmount, filledAmount, weightedSum)`.  The three early exits
mirror the source: loop condition `remainingAmount > 0`, `continue` on
a dead entry (`FilledAmount >= Amount`), and `break` when a limit
order meets a worse price. -/
def walk (order : Order) : List Order → ℚ → List Order × ℚ × ℚ × ℚ
  | [], remainingAmount => ([], remainingAmount, 0, 0)
  | matched :: rest, remainingAmount =>
    if remainingAmount ≤ 0 then (matched :: rest, remainingAmount, 0, 0)
    else if matched.FilledAmount ≥ matched.Amount then
      let r := walk order rest remainingAmount
      (matched :: r.1, r.2)
    else if order.type_ = OrderType.Limit ∧
        ((order.IsBuyOrder = true ∧ matched.Price > order.Price) ∨
         (order.IsBuyOrder = false ∧ matched.Price < order.Price)) then
      (matched :: rest, remainingAmount, 0, 0)
    else
      let matchAmount := minQ remainingAmount (matched.Amount - matched.FilledAmount)
      if matchAmount > 0 then
        let r := walk order rest (remainingAmount - matchAmount)
        ({ matched with FilledAmount := matched.FilledAmount + matchAmount } :: r.1,
          r.2.1, r.2.2.1 + matchAmount, r.2.2.2 + matchAmount * matched.Price)
      else
        let r := walk order rest remainingAmount
        (matched :: r.1, r.2)

/-- The comparator `sort.Slice` is given in `matchOrders` (lines
108-117): ascending resting price for an incoming buy, descending for
an incoming sell. -/
def priceBefore (isBuy : Bool) (a b : Order) : Bool :=
  if isBuy then decide (a.Price < b.Price) else decide (b.Price < a.Price)

/-- Insertion step of the sort modelling `sort.Slice`. -/
def insertByPrice (isBuy : Bool) (o : Order) : List Order → List Order
  | [] => [o]
  | m :: rest =>
    if priceBefore isBuy o m then o :: m :: rest
    else m :: insertByPrice isBuy o rest

/-- The pre-match sort of the opposing side (`sort.Slice` in
`matchOrders`): sorted by `priceBefore`, ties in unspecified order in
Go, modelled by insertion sort. -/
def sortByPrice (isBuy : Bool) : List Order → List Order
  | [] => []
  | o :: rest => insertByPrice isBuy o (sortByPrice isBuy rest)

/-- Embeds `cleanupOrders` (`matching.go` lines 172-180): keeps exactly the
entries with `FilledAmount < Amount`. -/
def cleanupOrders (orders : List Order) : List Order :=
  orders.filter fun o => decide (o.FilledAmount < o.Amount)

/-- Embeds `matchOrders` (`matching.go` lines 100-164): sort the opposing
side, walk it, compact it, and build the `MatchResult` with the
weighted execution price of the book fills. -/
def matchOrders (order : Order) (matchingOrders : List Order) :
    List Order × MatchResult :=
  let sorted := sortByPrice order.IsBuyOrder matchingOrders
  let w := walk order sorted order.Amount
  let remainingAmount := w.2.1
  let filledAmount := w.2.2.1
  let weightedSum := w.2.2.2
  let executedPrice := if filledAmount > 0 then weightedSum / filledAmount else 0
  (cleanupOrders w.1,
    { Success := decide (remainingAmount = 0)
      FilledAmount := filledAmount
      RemainingAmount := remainingAmount
      ExecutedPrice := executedPrice })

/-- The fallback block shared verbatim by `processMarketOrder` (lines
57-63) and `processLimitOrder` (lines 78-84): when a remainder is left,
try the pool once; on a nil error add the pool's fill to the filled
quantity, subtract it from the remainder and recompute `Success`.
`ExecutedPrice` is not touched. -/
def applyLiquidityPool (lp : LiquidityPoolModel) (result : MatchResult) :
    MatchResult :=
  if result.RemainingAmount > 0 then
    match tryLiquidityPool lp result.RemainingAmount with
    | some lpFilled =>
      { result with
        FilledAmount := result.FilledAmount + lpFilled
        RemainingAmount := result.RemainingAmount - lpFilled
        Success := decide (result.RemainingAmount - lpFilled = 0) }
    | none => result
  else result

/-- Embeds `processMarketOrder` (`matching.go` lines 47-66): match against the
opposing side, then the fallback block; the remainder is only
reported, never stored. -/
def processMarketOrder (lp : LiquidityPoolModel) (book : OrderBook)
    (order : Order) : OrderBook × MatchResult :=
  if order.IsBuyOrder then
    let m := matchOrders order book.SellOrders
    ({ book with SellOrders := m.1 }, applyLiquidityPool lp m.2)
  else
    let m := matchOrders order book.BuyOrders
    ({ book with BuyOrders := m.1 }, applyLiquidityPool lp m.2)

/-- Embeds `processLimitOrder` (`matching.go` lines 68-97): match, fallback,
then append any positive remainder to the order's own side as a copy
of the order with `Amount` set to the remainder. -/
def processLimitOrder (lp : LiquidityPoolModel) (book : OrderBook)
    (order : Order) : OrderBook × MatchResult :=
  if order.IsBuyOrder then
    let m := matchOrders order book.SellOrders
    let result := applyLiquidityPool lp m.2
    if result.RemainingAmount > 0 then
      ({ BuyOrders := book.BuyOrders ++ [{ order with Amount := result.RemainingAmount }]
         SellOrders := m.1 }, result)
    else
      ({ book with SellOrders := m.1 }, result)
  else
    let m := matchOrders order book.BuyOrders
    let result := applyLiquidityPool lp m.2
    if result.RemainingAmount > 0 then
      ({ BuyOrders := m.1
         SellOrders := book.SellOrders ++ [{ order with Amount := result.RemainingAmount }] },
        result)
    else
      ({ book with BuyOrders := m.1 }, result)

/-- Embeds `ProcessOrder` (`matching.go` lines 25-45): reset the bookkeeping
fields of the incoming order, fetch the reference price, check the
protective thresholds (full fill at the reference price when they
fire), otherwise dispatch on the order type. -/
def ProcessOrder (lp : LiquidityPoolModel) (book : OrderBook)
    (incoming : Order) : OrderBook × MatchResult :=
  let order := { incoming with InitialAmount := incoming.Amount, FilledAmount := 0 }
  let currentPrice := lp.currentPrice
  if checkStopLossAndTakeProfit order currentPrice then
    (book,
      { Success := true
        FilledAmount := order.Amount
        RemainingAmount := 0
        ExecutedPrice := currentPrice })
  else if order.type_ = OrderType.Market then
    processMarketOrder lp book order
  else
    processLimitOrder lp book order

/-- A resting price acceptable to an incoming limit order: at or below
the limit for a buy, at or above it for a sell. -/
def priceAcceptable (order : Order) (p : ℚ) : Prop :=
  if order.IsBuyOrder then p ≤ order.Price else order.Price ≤ p

/-- The book invariant of the spec: every resting entry on either side
has positive remaining capacity. -/
def GoodBook (book : OrderBook) : Prop :=
  (∀ m ∈ book.BuyOrders, m.FilledAmount < m.Amount) ∧
  (∀ m ∈ book.SellOrders, m.FilledAmount < m.Amount)

/-- Book states reachable from the empty book by processing requests,
with arbitrary collaborator responses at every step. -/
inductive Reachable : OrderBook → Prop where
| empty : Reachable { BuyOrders := [], SellOrders := [] }
| step (lp : LiquidityPoolModel) (order : Order) (book : OrderBook) :
    Reachable book → Reachable (ProcessOrder lp book order).1

/-!
Concrete inputs, used by the divergence theorems (evaluating the
embedded code at a failing input) and by the witnesses of the proved
claims.  They re-create the situations of the repository's own tests
(`matching_test.go`) and of the specification's scenarios.
-/

/-- A resting limit sell at price 100, quantity 5 (per the
`TestComplexOrderScenario` fixture). -/
def sellAt100x5 : Order :=
  { ID := "sell-1", Price := 100, Amount := 5, InitialAmount := 5, FilledAmount := 0,
    type_ := OrderType.Limit, IsBuyOrder := false, Trader := "", Asset := "BTC",
    Leverage := 2, MarginType := MarginType.Cross, Expiration := 0,
    StopLossPrice := 0, TakeProfitPrice := 0 }

/-- A resting limit sell at price 102, quantity 7 (per the
`TestComplexOrderScenario` fixture). -/
def sellAt102x7 : Order :=
  { sellAt100x5 with
      ID := "sell-2", Price := 102, Amount := 7, InitialAmount := 7,
      Leverage := 1, MarginType := MarginType.Isolated }

/-- A resting limit sell at price 101, quantity 7 (spec scenario 5). -/
def sellAt101x7 : Order :=
  { sellAt100x5 with ID := "s-101", Price := 101, Amount := 7, InitialAmount := 7 }

/-- An incoming market buy for quantity 15. -/
def marketBuy15 : Order :=
  { sellAt100x5 with
      ID := "buy-1", Price := 0, Amount := 15, InitialAmount := 15,
      type_ := OrderType.Market, IsBuyOrder := true }

/-- An incoming limit buy at price 100 for quantity 5 (spec scenario 5). -/
def limitBuy100 : Order :=
  { sellAt100x5 with
      ID := "buy-lim", Price := 100, Amount := 5, InitialAmount := 5,
      type_ := OrderType.Limit, IsBuyOrder := true }

/-- An incoming market buy for quantity 5 with a stop-loss threshold at
95 (per `TestStopLossAndTakeProfit`). -/
def stopLossBuy : Order :=
  { sellAt100x5 with
      ID := "buy-sl-1", Price := 100, Amount := 5, InitialAmount := 5,
      type_ := OrderType.Market, IsBuyOrder := true, StopLossPrice := 95 }

/-- An incoming market buy with the invalid quantity `-5` and a
stop-loss threshold at 95. -/
def negativeBuy : Order :=
  { stopLossBuy with ID := "buy-neg", Amount := -5, InitialAmount := -5 }

/-- An incoming limit sell at price 100 for quantity 4, matching
nothing. -/
def limitSell4 : Order :=
  { sellAt100x5 with ID := "sell-rest", Price := 100, Amount := 4, InitialAmount := 4 }

/-- An incoming limit buy for quantity 0. -/
def zeroBuy : Order :=
  { limitBuy100 with ID := "buy-zero", Amount := 0, InitialAmount := 0 }

/-- The empty order book the engine starts from. -/
def emptyBook : OrderBook := { BuyOrders := [], SellOrders := [] }

/-- A book holding the two resting sells of `TestComplexOrderScenario`. -/
def complexBook : OrderBook := { BuyOrders := [], SellOrders := [sellAt100x5, sellAt102x7] }

/-- A book holding one resting sell at 101×7. -/
def demoBook : OrderBook := { BuyOrders := [], SellOrders := [sellAt101x7] }

/-- The mock collaborator of the repository's tests: reference price
100, liquidity 1000 available, and `TradeWithPool` filling half of any
requested quantity. -/
def halfFillPool : LiquidityPoolModel :=
  { currentPrice := 100, availableLiquidity := (1000, true),
    tradeWithPool := fun q => some (q / 2), isNil := false }

/-- A collaborator with reference price 94 and no fallback capacity. -/
def dryPoolAt94 : LiquidityPoolModel :=
  { currentPrice := 94, availableLiquidity := (0, false),
    tradeWithPool := fun _ => none, isNil := false }

/-- An unreachable collaborator: `GetCurrentPrice` yields the sentinel
`0` and the fallback calls fail, as in `liquiditypool/client.go` when
every HTTP request errors. -/
def unreachablePool : LiquidityPoolModel :=
  { currentPrice := 0, availableLiquidity := (0, false),
    tradeWithPool := fun _ => none, isNil := false }

/-!
Helper lemmas about the embedded operations.
-/

/-- The two order kinds are distinct (used to reduce the dispatch and
break conditions on concrete inputs). -/
theorem OrderType_market_ne_limit : OrderType.Market ≠ OrderType.Limit := by
  intro h
  exact OrderType.noConfusion h

/-- The bookkeeping reset `ProcessOrder` performs on the incoming order
does not change the threshold evaluation (which reads only the side and
the two thresholds). -/
theorem checkStopLossAndTakeProfit_reset (o : Order) (a b p : ℚ) :
    checkStopLossAndTakeProfit { o with InitialAmount := a, FilledAmount := b } p =
      checkStopLossAndTakeProfit o p := rfl

/-- Quantity bookkeeping of the matching loop: the filled quantity plus
the final remainder equals the initial remainder. -/
theorem walk_filled_add_remaining (o : Order) (l : List Order) (rem : ℚ) :
    (walk o l rem).2.2.1 + (walk o l rem).2.1 = rem := by
  induction l generalizing rem with
  | nil => simp [walk]
  | cons m rest ih =>
    simp only [walk]
    split_ifs with h1 h2 h3 h4
    · simp
    · simpa using ih rem
    · simp
    · have := ih (rem - minQ rem (m.Amount - m.FilledAmount))
      simp only [] at this ⊢
      linarith
    · simpa using ih rem

/-- A walk with no remaining quantity is a no-op. -/
theorem walk_zero (o : Order) (l : List Order) : walk o l 0 = (l, 0, 0, 0) := by
  cases l with
  | nil => simp [walk]
  | cons m rest => simp [walk]

/-- Quantity bookkeeping of `matchOrders`. -/
theorem matchOrders_filled_add_remaining (o : Order) (l : List Order) :
    (matchOrders o l).2.FilledAmount + (matchOrders o l).2.RemainingAmount = o.Amount := by
  simpa [matchOrders] using
    walk_filled_add_remaining o (sortByPrice o.IsBuyOrder l) o.Amount

/-- The fallback block moves quantity between filled and remaining but
conserves their sum. -/
theorem applyLiquidityPool_filled_add_remaining (lp : LiquidityPoolModel) (r : MatchResult) :
    (applyLiquidityPool lp r).FilledAmount + (applyLiquidityPool lp r).RemainingAmount =
      r.FilledAmount + r.RemainingAmount := by
  simp only [applyLiquidityPool]
  split_ifs with h
  · cases htp : tryLiquidityPool lp r.RemainingAmount with
    | none => simp
    | some f => simp
  · rfl

/-- The fallback block never changes the executed price. -/
theorem applyLiquidityPool_executedPrice (lp : LiquidityPoolModel) (r : MatchResult) :
    (applyLiquidityPool lp r).ExecutedPrice = r.ExecutedPrice := by
  simp only [applyLiquidityPool]
  split_ifs with h
  · cases htp : tryLiquidityPool lp r.RemainingAmount with
    | none => rfl
    | some f => simp
  · rfl

/-- Every entry surviving `cleanupOrders` has remaining capacity. -/
theorem cleanupOrders_mem (l : List Order) (m : Order) (h : m ∈ cleanupOrders l) :
    m.FilledAmount < m.Amount := by
  have := (List.mem_filter.mp h).2
  simpa using this

/-- Compaction is the identity on a side in which every entry already
has remaining capacity. -/
theorem cleanupOrders_eq_self (l : List Order)
    (h : ∀ m ∈ l, m.FilledAmount < m.Amount) :
    cleanupOrders l = l := by
  apply List.filter_eq_self.mpr
  intro m hm
  simpa using h m hm

/-- Inserting into the sort is a permutation. -/
theorem insertByPrice_perm (b : Bool) (o : Order) (l : List Order) :
    (insertByPrice b o l).Perm (o :: l) := by
  induction l with
  | nil => simp [insertByPrice]
  | cons m rest ih =>
    simp only [insertByPrice]
    split_ifs with h
    · exact List.Perm.refl _
    · exact (ih.cons m).trans (List.Perm.swap o m rest)

/-- The pre-match sort is a permutation of the side it sorts. -/
theorem sortByPrice_perm (b : Bool) (l : List Order) :
    (sortByPrice b l).Perm l := by
  induction l with
  | nil => simp [sortByPrice]
  | cons o rest ih =>
    exact (insertByPrice_perm b o (sortByPrice b rest)).trans (ih.cons o)

/-- Quantity conservation through `processMarketOrder`. -/
theorem processMarketOrder_filled_add_remaining (lp : LiquidityPoolModel)
    (book : OrderBook) (o : Order) :
    (processMarketOrder lp book o).2.FilledAmount +
      (processMarketOrder lp book o).2.RemainingAmount = o.Amount := by
  simp only [processMarketOrder]
  split_ifs with h <;>
    simpa [applyLiquidityPool_filled_add_remaining] using
      matchOrders_filled_add_remaining o _

/-- Quantity conservation through `processLimitOrder`. -/
theorem processLimitOrder_filled_add_remaining (lp : LiquidityPoolModel)
    (book : OrderBook) (o : Order) :
    (processLimitOrder lp book o).2.FilledAmount +
      (processLimitOrder lp book o).2.RemainingAmount = o.Amount := by
  simp only [processLimitOrder]
  split_ifs with h h2 h3 <;>
    simpa [applyLiquidityPool_filled_add_remaining] using
      matchOrders_filled_add_remaining o _

/-!
The claims.
-/

/-- C2.  For every processed request, the returned outcome satisfies
filledQuantity + remainingQuantity == requestedQuantity of the incoming
request, exactly — no quantity is created or destroyed by the book walk
or the fallback fill. -/
theorem claim_C2_quantity_conserved (lp : LiquidityPoolModel) (book : OrderBook)
    (order : Order) :
    (ProcessOrder lp book order).2.FilledAmount +
      (ProcessOrder lp book order).2.RemainingAmount = order.Amount := by
  simp only [ProcessOrder]
  split_ifs with h1 h2
  · simp
  · simpa using processMarketOrder_filled_add_remaining lp book _
  · simpa using processLimitOrder_filled_add_remaining lp book _

/-- C4.  The threshold evaluation returns true iff an active threshold
fires, with exactly these comparisons: for a buy, stop-loss fires when
the reference price is at most the stop-loss threshold and take-profit
fires when it is at least the take-profit threshold; for a sell,
stop-loss fires when the reference price is at least the stop-loss
threshold and take-profit fires when it is at least the take-profit
threshold (same direction as the sell stop-loss); a threshold of
0/unset never fires. -/
theorem claim_C4_trigger_rule (order : Order) (p : ℚ) :
    checkStopLossAndTakeProfit order p = true ↔
      (if order.IsBuyOrder then
        (0 < order.StopLossPrice ∧ p ≤ order.StopLossPrice) ∨
        (0 < order.TakeProfitPrice ∧ order.TakeProfitPrice ≤ p)
       else
        (0 < order.StopLossPrice ∧ order.StopLossPrice ≤ p) ∨
        (0 < order.TakeProfitPrice ∧ order.TakeProfitPrice ≤ p)) := by
  simp only [checkStopLossAndTakeProfit]
  split_ifs with hb h1 h2 h3 h4 <;> simp_all

/-- C5.  Whenever the protective-threshold check fires for an incoming
request, process returns an outcome with filledQuantity equal to the
full requestedQuantity, remainingQuantity 0, and executedPrice equal to
the reference price, and both sides of the order book are left exactly
unchanged. -/
theorem claim_C5_threshold_execution (lp : LiquidityPoolModel) (book : OrderBook)
    (order : Order)
    (h : checkStopLossAndTakeProfit order lp.currentPrice = true) :
    (ProcessOrder lp book order).1 = book ∧
    (ProcessOrder lp book order).2 =
      { Success := true, FilledAmount := order.Amount, RemainingAmount := 0,
        ExecutedPrice := lp.currentPrice } := by
  simp [ProcessOrder, checkStopLossAndTakeProfit_reset, h]

/-- Witness for C5: the stop-loss buy of the repository's own threshold
test, processed at reference price 94 against a non-empty book, is
reported fully filled at 94 with the book untouched. -/
theorem claim_C5_threshold_execution_witness :
    (ProcessOrder dryPoolAt94 demoBook stopLossBuy).1 = demoBook ∧
    (ProcessOrder dryPoolAt94 demoBook stopLossBuy).2 =
      { Success := true, FilledAmount := 5, RemainingAmount := 0,
        ExecutedPrice := 94 } := by
  have h := claim_C5_threshold_execution dryPoolAt94 demoBook stopLossBuy
    (by norm_num [checkStopLossAndTakeProfit, stopLossBuy, sellAt100x5, dryPoolAt94])
  simpa [stopLossBuy, sellAt100x5, dryPoolAt94] using h

/-- C6.  When matching an incoming limit request, every resting entry
of the walked side is either returned unchanged or has only its
filledQuantity increased, and in the latter case its price is
acceptable to the incoming limit (resting price at most the limit for a
buy, at least the limit for a sell) — so no book fill of an incoming
limit request ever occurs at a price worse than its limit; in
particular a limit buy at 100 against a single resting sell at 101
receives no book fill (the walk stops immediately and the result
reports zero filled). -/
theorem claim_C6_limit_price_protection :
    (∀ (order : Order) (l : List Order) (rem : ℚ), order.type_ = OrderType.Limit →
      List.Forall₂ (fun m m' => m' = m ∨
          (priceAcceptable order m.Price ∧ m' = { m with FilledAmount := m'.FilledAmount }))
        l (walk order l rem).1) ∧
    matchOrders limitBuy100 [sellAt101x7] =
      ([sellAt101x7],
        { Success := false, FilledAmount := 0, RemainingAmount := 5, ExecutedPrice := 0 }) := by
  constructor
  · intro order l rem hlim
    induction l generalizing rem with
    | nil => simp [walk]
    | cons m rest ih =>
      simp only [walk]
      split_ifs with h1 h2 h3 h4
      · exact List.forall₂_same.mpr fun a _ => Or.inl rfl
      · exact List.Forall₂.cons (Or.inl rfl) (ih rem)
      · exact List.forall₂_same.mpr fun a _ => Or.inl rfl
      · refine List.Forall₂.cons (Or.inr ⟨?_, rfl⟩) (ih _)
        cases hb : order.IsBuyOrder with
        | true =>
          simp only [priceAcceptable, hb, if_true]
          exact le_of_not_lt fun hgt => h3 ⟨hlim, Or.inl ⟨hb, hgt⟩⟩
        | false =>
          simp only [priceAcceptable, hb, Bool.false_eq_true, if_false]
          exact le_of_not_lt fun hgt => h3 ⟨hlim, Or.inr ⟨hb, hgt⟩⟩
      · exact List.Forall₂.cons (Or.inl rfl) (ih rem)
  · norm_num [matchOrders, sortByPrice, insertByPrice, priceBefore, walk,
      cleanupOrders, minQ, limitBuy100, sellAt101x7, sellAt100x5]

/-- Witness for C6: the limit buy at 100 against the resting sell at
101 satisfies the per-entry protection property. -/
theorem claim_C6_limit_price_protection_witness :
    List.Forall₂ (fun m m' => m' = m ∨
        (priceAcceptable limitBuy100 m.Price ∧ m' = { m with FilledAmount := m'.FilledAmount }))
      [sellAt101x7] (walk limitBuy100 [sellAt101x7] 5).1 :=
  claim_C6_limit_price_protection.1 limitBuy100 [sellAt101x7] 5 rfl

/-- One processing step preserves the compaction invariant: the walked
side is compacted by `cleanupOrders`, the own side is either untouched
or extended by the freshly resting remainder, which has
filledQuantity 0 and positive quantity. -/
theorem ProcessOrder_preserves_GoodBook (lp : LiquidityPoolModel) (book : OrderBook)
    (order : Order) (h : GoodBook book) :
    GoodBook (ProcessOrder lp book order).1 := by
  obtain ⟨hbuy, hsell⟩ := h
  simp only [ProcessOrder]
  split_ifs with h1 h2
  · exact ⟨hbuy, hsell⟩
  · simp only [processMarketOrder]
    split_ifs with hb
    · exact ⟨hbuy, fun m hm => cleanupOrders_mem _ m hm⟩
    · exact ⟨fun m hm => cleanupOrders_mem _ m hm, hsell⟩
  · simp only [processLimitOrder]
    split_ifs with hb hrem hrem
    · refine ⟨fun m hm => ?_, fun m hm => cleanupOrders_mem _ m hm⟩
      rcases List.mem_append.mp hm with hm | hm
      · exact hbuy m hm
      · rcases List.mem_singleton.mp hm with rfl
        simpa using hrem
    · exact ⟨hbuy, fun m hm => cleanupOrders_mem _ m hm⟩
    · refine ⟨fun m hm => cleanupOrders_mem _ m hm, fun m hm => ?_⟩
      rcases List.mem_append.mp hm with hm | hm
      · exact hsell m hm
      · rcases List.mem_singleton.mp hm with rfl
        simpa using hrem
    · exact ⟨fun m hm => cleanupOrders_mem _ m hm, hsell⟩

/-- C7.  After every process call, no request resting on either side of
the book has filledQuantity at or above requestedQuantity: starting
from an empty book, every reachable book state contains only entries
with positive remaining capacity. -/
theorem claim_C7_book_invariant (book : OrderBook) (h : Reachable book) :
    GoodBook book := by
  induction h with
  | empty => exact ⟨fun m hm => by simp at hm, fun m hm => by simp at hm⟩
  | step lp order b hb ih => exact ProcessOrder_preserves_GoodBook lp b order ih

/-- Witness for C7: the book reached from the empty book by processing
one resting limit sell (which ends up on the sell side) satisfies the
invariant. -/
theorem claim_C7_book_invariant_witness :
    GoodBook (ProcessOrder dryPoolAt94 emptyBook limitSell4).1 :=
  claim_C7_book_invariant _
    (Reachable.step dryPoolAt94 limitSell4 _ Reachable.empty)

/-- When the protective threshold fires on the reset incoming order,
`ProcessOrder` returns the threshold-execution outcome directly. -/
theorem ProcessOrder_triggered (lp : LiquidityPoolModel) (book : OrderBook)
    (order : Order)
    (hth : checkStopLossAndTakeProfit
      { order with InitialAmount := order.Amount, FilledAmount := 0 } lp.currentPrice = true) :
    ProcessOrder lp book order =
      (book,
        { Success := true, FilledAmount := order.Amount, RemainingAmount := 0,
          ExecutedPrice := lp.currentPrice }) := by
  simp only [ProcessOrder]
  rw [if_pos hth]

/-- When the threshold does not fire and the order is a market order,
`ProcessOrder` dispatches to `processMarketOrder` on the reset order. -/
theorem ProcessOrder_not_triggered_market (lp : LiquidityPoolModel) (book : OrderBook)
    (order : Order)
    (hth : ¬checkStopLossAndTakeProfit
      { order with InitialAmount := order.Amount, FilledAmount := 0 } lp.currentPrice = true)
    (hmk : order.type_ = OrderType.Market) :
    ProcessOrder lp book order =
      processMarketOrder lp book { order with InitialAmount := order.Amount, FilledAmount := 0 } := by
  simp only [ProcessOrder]
  rw [if_neg hth,
    if_pos (show ({ order with InitialAmount := order.Amount, FilledAmount := 0 } : Order).type_ =
      OrderType.Market from hmk)]

/-- When the threshold does not fire and the order is a limit order,
`ProcessOrder` dispatches to `processLimitOrder` on the reset order. -/
theorem ProcessOrder_not_triggered_limit (lp : LiquidityPoolModel) (book : OrderBook)
    (order : Order)
    (hth : ¬checkStopLossAndTakeProfit
      { order with InitialAmount := order.Amount, FilledAmount := 0 } lp.currentPrice = true)
    (hlim : order.type_ = OrderType.Limit) :
    ProcessOrder lp book order =
      processLimitOrder lp book { order with InitialAmount := order.Amount, FilledAmount := 0 } := by
  have hne : ¬({ order with InitialAmount := order.Amount, FilledAmount := 0 } : Order).type_ =
      OrderType.Market := by
    intro hc
    simp [hlim] at hc
  simp only [ProcessOrder]
  rw [if_neg hth, if_neg hne]

/-- A market order leaves its own side of the book untouched. -/
theorem processMarketOrder_own_side (lp : LiquidityPoolModel) (book : OrderBook)
    (o : Order) :
    (if o.IsBuyOrder then (processMarketOrder lp book o).1.BuyOrders = book.BuyOrders
     else (processMarketOrder lp book o).1.SellOrders = book.SellOrders) := by
  simp only [processMarketOrder]
  split_ifs with hb <;> simp

/-- A limit order leaving a positive remainder after the book walk and
the fallback attempt is appended to its own side with the remainder as
its quantity. -/
theorem processLimitOrder_inserts (lp : LiquidityPoolModel) (book : OrderBook)
    (o : Order) (hrem : 0 < (processLimitOrder lp book o).2.RemainingAmount) :
    (if o.IsBuyOrder then
      (processLimitOrder lp book o).1.BuyOrders =
        book.BuyOrders ++ [{ o with Amount := (processLimitOrder lp book o).2.RemainingAmount }]
     else
      (processLimitOrder lp book o).1.SellOrders =
        book.SellOrders ++ [{ o with Amount := (processLimitOrder lp book o).2.RemainingAmount }]) := by
  simp only [processLimitOrder] at hrem ⊢
  split_ifs at hrem ⊢ <;> simp_all

/-- C8.  Processing a market request never inserts it into the book
(its own side is returned unchanged; any unfilled remainder is only
reported), while processing a limit request whose remainder is still
positive after book and fallback matching appends it to its own side of
the book with exactly that remaining quantity (and its bookkeeping
fields reset as `ProcessOrder` does). -/
theorem claim_C8_resting_discipline (lp : LiquidityPoolModel) (book : OrderBook)
    (order : Order) :
    (order.type_ = OrderType.Market →
      (if order.IsBuyOrder then (ProcessOrder lp book order).1.BuyOrders = book.BuyOrders
       else (ProcessOrder lp book order).1.SellOrders = book.SellOrders)) ∧
    (order.type_ = OrderType.Limit →
      0 < (ProcessOrder lp book order).2.RemainingAmount →
      (if order.IsBuyOrder then
        (ProcessOrder lp book order).1.BuyOrders =
          book.BuyOrders ++
            [{ order with
                InitialAmount := order.Amount, FilledAmount := 0,
                Amount := (ProcessOrder lp book order).2.RemainingAmount }]
       else
        (ProcessOrder lp book order).1.SellOrders =
          book.SellOrders ++
            [{ order with
                InitialAmount := order.Amount, FilledAmount := 0,
                Amount := (ProcessOrder lp book order).2.RemainingAmount }])) := by
  constructor
  · intro hmk
    by_cases hth : checkStopLossAndTakeProfit
        { order with InitialAmount := order.Amount, FilledAmount := 0 } lp.currentPrice = true
    · rw [ProcessOrder_triggered lp book order hth]
      split_ifs <;> rfl
    · rw [ProcessOrder_not_triggered_market lp book order hth hmk]
      have h := processMarketOrder_own_side lp book
        { order with InitialAmount := order.Amount, FilledAmount := 0 }
      simpa using h
  · intro hlim hrem
    by_cases hth : checkStopLossAndTakeProfit
        { order with InitialAmount := order.Amount, FilledAmount := 0 } lp.currentPrice = true
    · rw [ProcessOrder_triggered lp book order hth] at hrem
      simp at hrem
    · rw [ProcessOrder_not_triggered_limit lp book order hth hlim] at hrem ⊢
      have h := processLimitOrder_inserts lp book _ hrem
      simpa using h

/-- Witness for C8: the market buy of the complex test never rests (its
own side stays as it was), and a limit sell matching nothing and
finding no fallback capacity rests on the sell side with its full
remainder. -/
theorem claim_C8_resting_discipline_witness :
    (ProcessOrder halfFillPool demoBook marketBuy15).1.BuyOrders = demoBook.BuyOrders ∧
    (ProcessOrder dryPoolAt94 emptyBook limitSell4).1.SellOrders =
      emptyBook.SellOrders ++
        [{ limitSell4 with
            InitialAmount := limitSell4.Amount, FilledAmount := 0,
            Amount := (ProcessOrder dryPoolAt94 emptyBook limitSell4).2.RemainingAmount }] := by
  constructor
  · have h := (claim_C8_resting_discipline halfFillPool demoBook marketBuy15).1 rfl
    simpa [marketBuy15, sellAt100x5] using h
  · have h := (claim_C8_resting_discipline dryPoolAt94 emptyBook limitSell4).2 rfl
      (by
        rw [ProcessOrder_not_triggered_limit dryPoolAt94 emptyBook limitSell4
          (by norm_num [checkStopLossAndTakeProfit, limitSell4, sellAt100x5, dryPoolAt94]) rfl]
        norm_num [processLimitOrder, matchOrders, sortByPrice, walk, cleanupOrders,
          applyLiquidityPool, tryLiquidityPool, limitSell4, sellAt100x5, dryPoolAt94, minQ])
    simpa [limitSell4, sellAt100x5] using h

/-- The fallback block does nothing to an already-complete zero
outcome. -/
theorem applyLiquidityPool_zero (lp : LiquidityPoolModel) :
    applyLiquidityPool lp
        { Success := true, FilledAmount := 0, RemainingAmount := 0, ExecutedPrice := 0 } =
      { Success := true, FilledAmount := 0, RemainingAmount := 0, ExecutedPrice := 0 } := by
  simp [applyLiquidityPool]

/-- Matching a zero-quantity order fills nothing: the walked side is
merely re-sorted (compaction drops nothing when the side satisfies the
invariant), and the outcome is the successful zero outcome. -/
theorem matchOrders_zero_amount (o : Order) (l : List Order) (h0 : o.Amount = 0)
    (hl : ∀ m ∈ l, m.FilledAmount < m.Amount) :
    matchOrders o l =
      (sortByPrice o.IsBuyOrder l,
        { Success := true, FilledAmount := 0, RemainingAmount := 0, ExecutedPrice := 0 }) := by
  simp only [matchOrders, h0]
  rw [walk_zero]
  have hcl : cleanupOrders (sortByPrice o.IsBuyOrder l) = sortByPrice o.IsBuyOrder l :=
    cleanupOrders_eq_self _ fun m hm =>
      hl m ((sortByPrice_perm o.IsBuyOrder l).mem_iff.mp hm)
  rw [hcl]
  norm_num

/-- C10.  A request with requestedQuantity 0 whose protective
thresholds do not fire is reported as a successful zero fill (filled 0,
remaining 0, price 0), inserts nothing into the book, and leaves the
multiset of resting requests on both sides unchanged (entries may only
be reordered by the pre-match sort). -/
theorem claim_C10_zero_quantity (lp : LiquidityPoolModel) (book : OrderBook)
    (order : Order) (hq : order.Amount = 0)
    (hth : checkStopLossAndTakeProfit order lp.currentPrice = false)
    (hgood : GoodBook book) :
    (ProcessOrder lp book order).2 =
      { Success := true, FilledAmount := 0, RemainingAmount := 0, ExecutedPrice := 0 } ∧
    (ProcessOrder lp book order).1.BuyOrders.Perm book.BuyOrders ∧
    (ProcessOrder lp book order).1.SellOrders.Perm book.SellOrders := by
  have hth' : ¬checkStopLossAndTakeProfit
      { order with InitialAmount := order.Amount, FilledAmount := 0 } lp.currentPrice = true := by
    rw [checkStopLossAndTakeProfit_reset, hth]
    simp
  obtain ⟨hbuy, hsell⟩ := hgood
  cases htyp : order.type_ with
  | Market =>
    rw [ProcessOrder_not_triggered_market lp book order hth' htyp]
    simp only [processMarketOrder]
    split_ifs with hb
    · rw [matchOrders_zero_amount
          { order with InitialAmount := order.Amount, FilledAmount := 0 }
          book.SellOrders hq hsell, applyLiquidityPool_zero]
      exact ⟨rfl, List.Perm.refl _, sortByPrice_perm _ _⟩
    · rw [matchOrders_zero_amount
          { order with InitialAmount := order.Amount, FilledAmount := 0 }
          book.BuyOrders hq hbuy, applyLiquidityPool_zero]
      exact ⟨rfl, sortByPrice_perm _ _, List.Perm.refl _⟩
  | Limit =>
    rw [ProcessOrder_not_triggered_limit lp book order hth' htyp]
    simp only [processLimitOrder]
    rw [matchOrders_zero_amount
        { order with InitialAmount := order.Amount, FilledAmount := 0 }
        book.SellOrders hq hsell,
      matchOrders_zero_amount
        { order with InitialAmount := order.Amount, FilledAmount := 0 }
        book.BuyOrders hq hbuy,
      applyLiquidityPool_zero]
    split_ifs with h1 h2 h3
    · exact absurd h2 (by norm_num)
    · exact ⟨rfl, List.Perm.refl _, sortByPrice_perm _ _⟩
    · exact absurd h3 (by norm_num)
    · exact ⟨rfl, sortByPrice_perm _ _, List.Perm.refl _⟩

/-- Witness for C10: a zero-quantity limit buy processed against the
one-entry book leaves the outcome at the zero fill and the book's
entries intact. -/
theorem claim_C10_zero_quantity_witness :
    (ProcessOrder dryPoolAt94 demoBook zeroBuy).2 =
      { Success := true, FilledAmount := 0, RemainingAmount := 0, ExecutedPrice := 0 } ∧
    (ProcessOrder dryPoolAt94 demoBook zeroBuy).1.BuyOrders.Perm demoBook.BuyOrders ∧
    (ProcessOrder dryPoolAt94 demoBook zeroBuy).1.SellOrders.Perm demoBook.SellOrders :=
  claim_C10_zero_quantity dryPoolAt94 demoBook zeroBuy rfl
    (by norm_num [checkStopLossAndTakeProfit, zeroBuy, limitBuy100, sellAt100x5, dryPoolAt94])
    ⟨by simp [demoBook], by norm_num [demoBook, sellAt101x7, sellAt100x5]⟩

/-- C1 fails on the code: re-running the `TestComplexOrderScenario`
fixture (resting sells 100×5 and 102×7, incoming market buy 15, the
mock pool filling half of the remainder at reference price 100), the
outcome's executedPrice is the book-only weighted average 607/6 — the
fallback fill contributes to filledQuantity but is never folded into
executedPrice, so the quantity-weighted average over every contributing
fill, (5·100 + 7·102 + 1.5·100)/13.5, which the repository's own test
asserts, differs from what the code returns. -/
theorem claim_C1_fallback_price_divergence :
    (ProcessOrder halfFillPool complexBook marketBuy15).2.FilledAmount = 27 / 2 ∧
    (ProcessOrder halfFillPool complexBook marketBuy15).2.RemainingAmount = 3 / 2 ∧
    (ProcessOrder halfFillPool complexBook marketBuy15).2.ExecutedPrice = 607 / 6 ∧
    (607 / 6 : ℚ) ≠ (5 * 100 + 7 * 102 + (3 / 2) * 100) / (27 / 2) := by
  norm_num [ProcessOrder, processMarketOrder, matchOrders, sortByPrice, insertByPrice,
    priceBefore, walk, cleanupOrders, minQ, applyLiquidityPool, tryLiquidityPool,
    checkStopLossAndTakeProfit, marketBuy15, complexBook, sellAt100x5, sellAt102x7,
    halfFillPool, OrderType_market_ne_limit]

/-- C3 fails on the code: when the collaborator is unreachable and
`GetCurrentPrice` returns its sentinel `0`, a buy request with an
active stop-loss threshold is threshold-executed (the sentinel
satisfies `currentPrice <= stopLossPrice`), reported fully filled at
price 0 — instead of the sentinel being treated as "no threshold
execution possible". -/
theorem claim_C3_sentinel_divergence :
    checkStopLossAndTakeProfit stopLossBuy 0 = true ∧
    (ProcessOrder unreachablePool demoBook stopLossBuy).1 = demoBook ∧
    (ProcessOrder unreachablePool demoBook stopLossBuy).2 =
      { Success := true, FilledAmount := 5, RemainingAmount := 0, ExecutedPrice := 0 } := by
  have hth : checkStopLossAndTakeProfit
      { stopLossBuy with InitialAmount := stopLossBuy.Amount, FilledAmount := 0 }
      unreachablePool.currentPrice = true := by
    norm_num [checkStopLossAndTakeProfit, stopLossBuy, sellAt100x5, unreachablePool]
  refine ⟨by norm_num [checkStopLossAndTakeProfit, stopLossBuy, sellAt100x5], ?_, ?_⟩
  · rw [ProcessOrder_triggered _ _ _ hth]
  · rw [ProcessOrder_triggered _ _ _ hth]
    norm_num [stopLossBuy, sellAt100x5, unreachablePool]

/-- C9 fails on the code: no input validation exists anywhere in
`ProcessOrder`, so a request with the non-positive quantity `-5` is not
rejected — it enters processing, its stop-loss threshold is evaluated
(and fires at reference price 94), and the engine reports a successful
"full fill" of `-5` at 94 instead of surfacing an invalid-request
rejection before matching. -/
theorem claim_C9_no_validation_divergence :
    negativeBuy.Amount < 0 ∧
    (ProcessOrder dryPoolAt94 emptyBook negativeBuy).2 =
      { Success := true, FilledAmount := -5, RemainingAmount := 0, ExecutedPrice := 94 } := by
  have hth : checkStopLossAndTakeProfit
      { negativeBuy with InitialAmount := negativeBuy.Amount, FilledAmount := 0 }
      dryPoolAt94.currentPrice = true := by
    norm_num [checkStopLossAndTakeProfit, negativeBuy, stopLossBuy, sellAt100x5, dryPoolAt94]
  refine ⟨by norm_num [negativeBuy, stopLossBuy, sellAt100x5], ?_⟩
  rw [ProcessOrder_triggered _ _ _ hth]
  norm_num [negativeBuy, stopLossBuy, sellAt100x5, dryPoolAt94]

end Engine
